import Mathlib

/-!
Verification of the audio-lib3 sample-mixing core (src/lib.rs).

The Rust code is shallowly embedded: the `Sound` struct becomes a Lean
structure over `Nat`/`Int` (u8 sample values are `Nat` below 256, u16
values are `Nat` below 65536, i32 intermediates are `Int` --- the code's
arithmetic never overflows i32, which is checked where it matters).
Fallible operations (Rust panics: remainder by zero, out-of-range
indexing) return `Option`.
-/

namespace AudioLib

/-- `SETUP_U8 = 1 << 7` from src/lib.rs line 5. -/
def SETUP_U8 : Int := 128

/-- `SETUP_U16 = 1 << 15` from src/lib.rs line 6. -/
def SETUP_U16 : Int := 32768

/-- The `Sound` struct (src/lib.rs lines 10-17).  `buffer` holds u8
sample values, `volume` a u16 value, `current` and `called` usize
counters. -/
structure Sound where
  buffer : List Nat
  buf_size : Nat
  volume : Nat
  mute : Bool
  current : Nat
  called : Nat
deriving DecidableEq

/-- `Control::set_mute` (src/lib.rs lines 33-36): stores the flag. -/
def set_mute (s : Sound) (specifier : Bool) : Sound :=
  { s with mute := specifier }

/-- `Control::set_volume` (src/lib.rs lines 38-41): stores the value,
with no validation. -/
def set_volume (s : Sound) (volume : Nat) : Sound :=
  { s with volume := volume }

/-- The loop body of `Control::set_data` (src/lib.rs lines 47-50):
for each byte, write it at `pos % len` and advance `pos`.  Rust panics
when `len = 0` (remainder by zero) or when the index is out of the
buffer's range; both become `none`. -/
def set_dataLoop (buffer : List Nat) (len : Nat) (pos : Nat) (sound : List Nat) :
    Option (List Nat) :=
  match sound with
  | [] => some buffer
  | a :: rest =>
    if len = 0 then none
    else if pos % len < buffer.length then
      set_dataLoop (buffer.set (pos % len) a) len (pos + 1) rest
    else none

/-- `Control::set_data` (src/lib.rs lines 43-51). -/
def set_data (s : Sound) (offset : Nat) (sound : List Nat) : Option Sound :=
  (set_dataLoop s.buffer s.buf_size offset sound).map fun b => { s with buffer := b }

/-- The read accessor `Control::buf_size` (src/lib.rs lines 53-56): it
takes `&mut self` but only reads, so it returns the value together with
the unchanged state. -/
def buf_size_acc (s : Sound) : Nat × Sound := (s.buf_size, s)

/-- The read accessor `Control::mute` (src/lib.rs lines 58-61). -/
def mute_acc (s : Sound) : Bool × Sound := (s.mute, s)

/-- The read accessor `Control::volume` (src/lib.rs lines 63-66). -/
def volume_acc (s : Sound) : Nat × Sound := (s.volume, s)

/-- The read accessor `Control::current` (src/lib.rs lines 68-71). -/
def current_acc (s : Sound) : Nat × Sound := (s.current, s)

/-- The read accessor `Control::called` (src/lib.rs lines 73-76). -/
def called_acc (s : Sound) : Nat × Sound := (s.called, s)

/-- The `match self.volume` gain ladder (src/lib.rs lines 90-99).
Rust's `<< k` on an i32 in the range reached here (the signed sample is
in [-128, 127], shifted by at most 8 bits) never overflows i32, so each
shift equals multiplication by the power of two. -/
def scaledSample (volume : Nat) (singed_sample : Int) : Int :=
  match volume with
  | 0 => 0
  | 1 => singed_sample * 4
  | 2 => singed_sample * 8
  | 3 => singed_sample * 16
  | 4 => singed_sample * 32
  | 5 => singed_sample * 64
  | 6 => singed_sample * 128
  | _ => singed_sample * 256

/-- One iteration of the callback loop body (src/lib.rs lines 84-102):
the `output` value computed for one slot, already re-biased and cast to
u16.  The Rust expression `self.current % self.buf_size` panics when
`buf_size = 0` (remainder by zero), hence `none` there; the `as u16`
cast of the i32 keeps the low 16 bits, i.e. reduces modulo 65536 into
[0, 65536). -/
def sampleOutput (s : Sound) : Option Nat :=
  if s.mute || s.volume == 0 then
    some ((0 + SETUP_U16) % 65536).toNat
  else if s.buf_size = 0 then
    none
  else
    let pos := s.current % s.buf_size
    let raw_sample := (s.buffer[pos]?).getD 128
    let singed_sample : Int := (raw_sample : Int) - SETUP_U8
    let output := scaledSample s.volume singed_sample
    some ((output + SETUP_U16) % 65536).toNat

/-- The `for dst in out.iter_mut()` loop of the callback (src/lib.rs
lines 83-104): produces one output sample per slot and advances
`current` after each. -/
def callbackLoop (s : Sound) (n : Nat) : Option (Sound × List Nat) :=
  match n with
  | 0 => some (s, [])
  | Nat.succ m =>
    match sampleOutput s with
    | none => none
    | some o =>
      match callbackLoop { s with current := s.current + 1 } m with
      | none => none
      | some (t, os) => some (t, o :: os)

/-- `AudioCallback::callback` (src/lib.rs lines 82-106) on an output
slice of length `n`: run the per-slot loop, then increment `called`
once. -/
def callback (s : Sound) (n : Nat) : Option (Sound × List Nat) :=
  (callbackLoop s n).map fun r => ({ r.1 with called := r.1.called + 1 }, r.2)

/-- The `Sound` value built by `AudioContext::open_device` (src/lib.rs
lines 170-181): a buffer of `len` neutral codes (128), zero volume and
counters, unmuted. -/
def openSound (len : Nat) : Sound :=
  { buffer := List.replicate len 128
    buf_size := len
    volume := 0
    mute := false
    current := 0
    called := 0 }

/-- The size invariant of the spec: `buf_size == buffer.length()`. -/
def sizeInv (s : Sound) : Prop := s.buf_size = s.buffer.length

/-! ### Helper lemmas -/

/-- The gain ladder falls into the default branch for every level at or
above 7. -/
lemma scaledSample_ge7 (k : Nat) (x : Int) : scaledSample (k + 7) x = x * 256 := rfl

/-- A successful `callbackLoop` run advances only `current`, by exactly
the slot count, and fills each slot `i` from the state whose cursor is
`current + i`. -/
lemma callbackLoop_spec (n : Nat) (s t : Sound) (outs : List Nat)
    (h : callbackLoop s n = some (t, outs)) :
    t = { s with current := s.current + n } ∧ outs.length = n ∧
      ∀ i, i < n → outs[i]? = sampleOutput { s with current := s.current + i } := by
  induction n generalizing s outs with
  | zero =>
    simp only [callbackLoop, Option.some.injEq, Prod.mk.injEq] at h
    obtain ⟨h1, h2⟩ := h
    subst h1; subst h2
    refine ⟨rfl, rfl, ?_⟩
    intro i hi
    exact absurd hi (Nat.not_lt_zero i)
  | succ m ih =>
    simp only [callbackLoop] at h
    cases ho : sampleOutput s with
    | none => rw [ho] at h; exact absurd h (by simp)
    | some o =>
      rw [ho] at h
      cases hl : callbackLoop { s with current := s.current + 1 } m with
      | none => rw [hl] at h; exact absurd h (by simp)
      | some r =>
        obtain ⟨t0, os⟩ := r
        rw [hl] at h
        simp only [Option.some.injEq, Prod.mk.injEq] at h
        obtain ⟨h1, h2⟩ := h
        subst h1; subst h2
        obtain ⟨ht, hlen, hget⟩ := ih _ _ hl
        refine ⟨?_, by simp [hlen], ?_⟩
        · rw [ht]
          have : s.current + 1 + m = s.current + (m + 1) := by omega
          simp [this]
        · intro i hi
          cases i with
          | zero => simpa using ho.symm
          | succ j =>
            have hj : j < m := Nat.lt_of_succ_lt_succ hi
            have := hget j hj
            simp only [List.getElem?_cons_succ]
            rw [this]
            have : s.current + 1 + j = s.current + (j + 1) := by omega
            simp [this]

/-- `sampleOutput` succeeds whenever the buffer size is non-zero or the
silence branch is taken. -/
lemma sampleOutput_isSome (s : Sound)
    (h : s.buf_size ≠ 0 ∨ s.mute = true ∨ s.volume = 0) :
    (sampleOutput s).isSome := by
  unfold sampleOutput
  rcases h with h | h | h
  · by_cases hm : (s.mute || s.volume == 0) = true
    · simp [hm]
    · simp [hm, h]
  · simp [h]
  · simp [h]

/-- A successful `set_dataLoop` run preserves the buffer length. -/
lemma set_dataLoop_length (sound : List Nat) (buffer : List Nat) (len pos : Nat)
    (b : List Nat) (h : set_dataLoop buffer len pos sound = some b) :
    b.length = buffer.length := by
  induction sound generalizing buffer pos with
  | nil => simp only [set_dataLoop, Option.some.injEq] at h; rw [← h]
  | cons a rest ih =>
    simp only [set_dataLoop] at h
    by_cases h0 : len = 0
    · simp [h0] at h
    · rw [if_neg h0] at h
      by_cases hlt : pos % len < buffer.length
      · rw [if_pos hlt] at h
        have := ih _ _ h
        simpa using this
      · simp [hlt] at h

/-- Two write positions of the same `set_data` run are distinct as long
as the offsets differ by less than the buffer size. -/
lemma mod_ne_of_lt (len pos k : Nat) (hk : 0 < k) (hklen : k < len) :
    pos % len ≠ (pos + k) % len := by
  intro h
  have hmod : pos ≡ pos + k [MOD len] := h
  have hdvd : len ∣ k := by
    have := (Nat.modEq_iff_dvd' (Nat.le_add_right pos k)).mp hmod
    simpa using this
  exact absurd (Nat.le_of_dvd hk hdvd) (by omega)

/-- Read-back specification of the `set_data` loop: when at most
`len` bytes are written into a buffer of length `len > 0`, the run
succeeds, every written slot reads back the byte written there, and
every untouched slot keeps its old value. -/
lemma set_dataLoop_spec (sound : List Nat) (buffer : List Nat) (len pos : Nat)
    (hlen : buffer.length = len) (h0 : 0 < len) (hle : sound.length ≤ len) :
    ∃ b, set_dataLoop buffer len pos sound = some b ∧ b.length = len ∧
      (∀ i, i < sound.length → b[(pos + i) % len]? = sound[i]?) ∧
      (∀ j, (∀ i, i < sound.length → j ≠ (pos + i) % len) → b[j]? = buffer[j]?) := by
  induction sound generalizing buffer pos with
  | nil =>
    refine ⟨buffer, rfl, hlen, ?_, fun j _ => rfl⟩
    intro i hi
    exact absurd hi (Nat.not_lt_zero i)
  | cons a rest ih =>
    have hplt : pos % len < buffer.length := by
      rw [hlen]; exact Nat.mod_lt pos h0
    have hcons : rest.length + 1 ≤ len := by
      simpa using hle
    have hrest : rest.length ≤ len := by omega
    obtain ⟨b, hb, hblen, hbget, hbframe⟩ :=
      ih (buffer.set (pos % len) a) (pos + 1) (by simpa using hlen) hrest
    refine ⟨b, ?_, hblen, ?_, ?_⟩
    · simp only [set_dataLoop, if_neg (Nat.pos_iff_ne_zero.mp h0), if_pos hplt]
      exact hb
    · intro i hi
      cases i with
      | zero =>
        have hne : ∀ i, i < rest.length → pos % len ≠ (pos + 1 + i) % len := by
          intro i hilt
          have : pos + 1 + i = pos + (1 + i) := by omega
          rw [this]
          exact mod_ne_of_lt len pos (1 + i) (by omega) (by omega)
        have := hbframe (pos % len) (by
          intro i hilt h
          exact hne i hilt (by simpa using h))
        rw [Nat.add_zero, this]
        simp only [List.getElem?_cons_zero]
        exact List.getElem?_set_eq_of_lt a hplt
      | succ i =>
        have hilt : i < rest.length := by
          simp only [List.length_cons] at hi; omega
        have := hbget i hilt
        have harith : pos + (i + 1) = pos + 1 + i := by omega
        rw [harith, this]
        simp
    · intro j hj
      have hj0 : j ≠ pos % len := by
        have := hj 0 (by simp)
        simpa using this
      have := hbframe j (by
        intro i hilt h
        have : pos + 1 + i = pos + (i + 1) := by omega
        rw [this] at h
        exact hj (i + 1) (by simpa using Nat.succ_lt_succ hilt) h)
      rw [this]
      exact List.getElem?_set_ne (Ne.symm hj0)

/-- The callback loop succeeds whenever the buffer size is non-zero or
the silence branch is taken. -/
lemma callbackLoop_isSome (n : Nat) (s : Sound)
    (h : s.buf_size ≠ 0 ∨ s.mute = true ∨ s.volume = 0) :
    (callbackLoop s n).isSome := by
  induction n generalizing s with
  | zero => simp [callbackLoop]
  | succ m ih =>
    have hs := sampleOutput_isSome s h
    cases ho : sampleOutput s with
    | none => rw [ho] at hs; simp at hs
    | some o =>
      have hrec := ih { s with current := s.current + 1 } (by simpa using h)
      cases hl : callbackLoop { s with current := s.current + 1 } m with
      | none => rw [hl] at hrec; simp at hrec
      | some r => simp [callbackLoop, ho, hl]

/-- Under mute or zero volume, the callback loop emits the neutral code
32768 in every slot. -/
lemma callbackLoop_silence (n : Nat) (s : Sound)
    (h : s.mute = true ∨ s.volume = 0) :
    callbackLoop s n = some ({ s with current := s.current + n }, List.replicate n 32768) := by
  induction n generalizing s with
  | zero => simp [callbackLoop]
  | succ m ih =>
    have ho : sampleOutput s = some 32768 := by
      unfold sampleOutput
      rcases h with h | h
      · simp [h, SETUP_U16]
      · simp [h, SETUP_U16]
    have hrec := ih { s with current := s.current + 1 } (by simpa using h)
    simp only [callbackLoop, ho, hrec]
    have : s.current + 1 + m = s.current + (m + 1) := by omega
    simp [this, List.replicate_succ]

/-- Evaluation of `sampleOutput` on the non-silent path with a
populated cursor position. -/
lemma sampleOutput_some (s : Sound) (raw : Nat)
    (hm : s.mute = false) (hv : 1 ≤ s.volume) (hbs : s.buf_size ≠ 0)
    (hraw : s.buffer[s.current % s.buf_size]? = some raw) :
    sampleOutput s =
      some ((scaledSample s.volume ((raw : Int) - 128) + 32768) % 65536).toNat := by
  have hv0 : (s.volume == 0) = false := by
    simp only [beq_eq_false_iff_ne, ne_eq]
    omega
  unfold sampleOutput
  rw [hm, hv0]
  simp only [Bool.or_self, Bool.false_eq_true, if_false, if_neg hbs, hraw,
    Option.getD_some, SETUP_U8, SETUP_U16]

/-- For levels 1 to 6 the ladder multiplies by `2 ^ (volume + 1)`, and
by 256 from level 7 on. -/
lemma scaledSample_eq (v : Nat) (hv : 1 ≤ v) (x : Int) :
    scaledSample v x = x * (if v ≤ 6 then 2 ^ (v + 1) else 256) := by
  by_cases h6 : v ≤ 6
  · rw [if_pos h6]
    interval_cases v <;> norm_num [scaledSample]
  · rw [if_neg h6]
    obtain ⟨k, rfl⟩ := Nat.exists_eq_add_of_le' (show 7 ≤ v by omega)
    exact scaledSample_ge7 k x

/-! ### Claims -/

/-- C2: whenever `mute` is set or `volume` is zero, every sample of a
callback over `n` slots is the neutral 16-bit code 32768, regardless of
buffer contents and cursor; the cursor still advances by `n` and the
call counter by one. -/
theorem mute_or_zero_silence (s : Sound) (n : Nat)
    (h : s.mute = true ∨ s.volume = 0) :
    callback s n =
      some ({ s with current := s.current + n, called := s.called + 1 },
        List.replicate n 32768) := by
  simp [callback, callbackLoop_silence n s h]

/-- Witness for C2 at a concrete muted state with junk buffer contents. -/
theorem mute_or_zero_silence_witness :
    callback { buffer := [5], buf_size := 1, volume := 3, mute := true,
               current := 0, called := 0 } 2 =
      some ({ buffer := [5], buf_size := 1, volume := 3, mute := true,
              current := 0 + 2, called := 0 + 1 }, List.replicate 2 32768) :=
  mute_or_zero_silence _ 2 (Or.inl rfl)

/-- C4: every successful callback over an `n`-slot output advances
`current` by exactly `n` and `called` by exactly 1, and produces exactly
`n` samples. -/
theorem callback_counters (s : Sound) (n : Nat) (t : Sound) (outs : List Nat)
    (h : callback s n = some (t, outs)) :
    t.current = s.current + n ∧ t.called = s.called + 1 ∧ outs.length = n := by
  unfold callback at h
  rw [Option.map_eq_some'] at h
  obtain ⟨⟨s1, os⟩, hl, hf⟩ := h
  obtain ⟨hs1, hlen, _⟩ := callbackLoop_spec n s s1 os hl
  injection hf with ht houts
  subst ht; subst houts; subst hs1
  exact ⟨rfl, rfl, hlen⟩

/-- Witness for C4 at a concrete state driven over three slots. -/
theorem callback_counters_witness :
    (3 : Nat) = 0 + 3 ∧ (1 : Nat) = 0 + 1 ∧ ([32768, 32768, 32768] : List Nat).length = 3 := by
  have h := callback_counters
    { buffer := [], buf_size := 0, volume := 0, mute := false, current := 0, called := 0 } 3
    { buffer := [], buf_size := 0, volume := 0, mute := false, current := 3, called := 1 }
    [32768, 32768, 32768] (by decide)
  exact h

/-- C5 (failing input): on the `Sound` state produced by
`open_device(0)` with volume set to 1 and mute off, the callback panics
in Rust at `self.current % self.buf_size` (remainder by zero) instead of
degrading to silence; in the embedding the run yields `none`. -/
theorem callback_zero_buf_size_panics :
    callback { buffer := [], buf_size := 0, volume := 1, mute := false,
               current := 0, called := 0 } 1 = none := rfl

/-- C9: `set_data` changes at most the buffer: `current`, `called`,
`mute`, `volume` and `buf_size` are untouched by every successful run. -/
theorem set_data_frame (s : Sound) (offset : Nat) (sound : List Nat) (t : Sound)
    (h : set_data s offset sound = some t) :
    t.current = s.current ∧ t.called = s.called ∧ t.mute = s.mute ∧
      t.volume = s.volume ∧ t.buf_size = s.buf_size := by
  unfold set_data at h
  rw [Option.map_eq_some'] at h
  obtain ⟨b, _, hf⟩ := h
  subst hf
  exact ⟨rfl, rfl, rfl, rfl, rfl⟩

/-- Witness for C9 at a concrete write into a one-byte store. -/
theorem set_data_frame_witness :
    (0 : Nat) = 0 ∧ (0 : Nat) = 0 ∧ (false = false) ∧ (0 : Nat) = 0 ∧ (1 : Nat) = 1 := by
  have h := set_data_frame
    { buffer := [128], buf_size := 1, volume := 0, mute := false, current := 0, called := 0 } 0 [7]
    { buffer := [7], buf_size := 1, volume := 0, mute := false, current := 0, called := 0 }
    (by decide)
  exact h

/-- C1: for a non-muted sample with volume at least 1 whose cursor
position is populated, the emitted u16 value is the signed deviation
`raw - 128` scaled by `2 ^ (volume + 1)` for volume 1..6 and by 256 for
volume 7 and above, re-biased by 32768 and reduced modulo 2^16. -/
theorem gain_ladder_8bit (s : Sound) (raw : Nat)
    (hm : s.mute = false) (hv : 1 ≤ s.volume) (hbs : s.buf_size ≠ 0)
    (hraw : s.buffer[s.current % s.buf_size]? = some raw) :
    sampleOutput s =
      some ((((raw : Int) - 128) *
        (if s.volume ≤ 6 then 2 ^ (s.volume + 1) else 256) + 32768) % 65536).toNat := by
  rw [sampleOutput_some s raw hm hv hbs hraw, scaledSample_eq s.volume hv]

/-- Witness for C1 at raw sample 200, volume 3 (multiplier 16). -/
theorem gain_ladder_8bit_witness :
    sampleOutput { buffer := [200], buf_size := 1, volume := 3, mute := false,
                   current := 0, called := 0 } =
      some ((((200 : Int) - 128) *
        (if (3 : Nat) ≤ 6 then 2 ^ (3 + 1) else 256) + 32768) % 65536).toNat :=
  gain_ladder_8bit _ 200 rfl (by decide) (by decide) (by decide)

/-- C7: `set_volume` stores any value unvalidated; every stored volume
at or above 7 mixes exactly as volume 7 does; and no volume value makes
the per-sample computation fail when the buffer size is non-zero. -/
theorem volume_tolerant (s : Sound) (v : Nat) :
    set_volume s v = { s with volume := v } ∧
    (7 ≤ v → sampleOutput { s with volume := v } = sampleOutput { s with volume := 7 }) ∧
    (s.buf_size ≠ 0 → (sampleOutput { s with volume := v }).isSome) := by
  refine ⟨rfl, ?_, ?_⟩
  · intro h7
    obtain ⟨k, rfl⟩ := Nat.exists_eq_add_of_le' h7
    rfl
  · intro hbs
    exact sampleOutput_isSome _ (Or.inl hbs)

/-- Witness for C7 at the out-of-range volume 9. -/
theorem volume_tolerant_witness :
    set_volume ⟨[1, 2], 2, 0, false, 5, 9⟩ 9 = (⟨[1, 2], 2, 9, false, 5, 9⟩ : Sound) ∧
    sampleOutput ⟨[1, 2], 2, 9, false, 5, 9⟩ = sampleOutput ⟨[1, 2], 2, 7, false, 5, 9⟩ ∧
    (sampleOutput ⟨[1, 2], 2, 9, false, 5, 9⟩).isSome := by
  refine ⟨(volume_tolerant ⟨[1, 2], 2, 0, false, 5, 9⟩ 9).1, ?_, ?_⟩
  · exact (volume_tolerant ⟨[1, 2], 2, 9, false, 5, 9⟩ 9).2.1 (by decide)
  · exact (volume_tolerant ⟨[1, 2], 2, 9, false, 5, 9⟩ 9).2.2 (by decide)

/-- C10: for every raw byte below 256 and every volume, the re-biased
intermediate `scaled + 32768` lies in [0, 65280], inside the u16 range,
so the final `% 65536` reduction (the `as u16` cast) is the identity and
never wraps. -/
theorem no_wrap_8bit (raw v : Nat) (hraw : raw < 256) :
    0 ≤ scaledSample v ((raw : Int) - SETUP_U8) + SETUP_U16 ∧
    scaledSample v ((raw : Int) - SETUP_U8) + SETUP_U16 ≤ 65280 ∧
    (scaledSample v ((raw : Int) - SETUP_U8) + SETUP_U16) % 65536 =
      scaledSample v ((raw : Int) - SETUP_U8) + SETUP_U16 := by
  have hr : (raw : Int) < 256 := by exact_mod_cast hraw
  have hr0 : 0 ≤ (raw : Int) := Int.natCast_nonneg raw
  have h1 : -128 ≤ (raw : Int) - SETUP_U8 := by simp only [SETUP_U8]; omega
  have h2 : (raw : Int) - SETUP_U8 ≤ 127 := by simp only [SETUP_U8]; omega
  have hb : 0 ≤ scaledSample v ((raw : Int) - SETUP_U8) + SETUP_U16 ∧
      scaledSample v ((raw : Int) - SETUP_U8) + SETUP_U16 ≤ 65280 := by
    by_cases h6 : v ≤ 6
    · interval_cases v <;> simp only [scaledSample, SETUP_U16] <;> omega
    · obtain ⟨k, rfl⟩ := Nat.exists_eq_add_of_le' (show 7 ≤ v by omega)
      rw [scaledSample_ge7]
      simp only [SETUP_U16]
      omega
  exact ⟨hb.1, hb.2, Int.emod_eq_of_lt hb.1 (by omega)⟩

/-- Witness for C10 at the extreme raw value 255 and volume 12. -/
theorem no_wrap_8bit_witness :
    0 ≤ scaledSample 12 ((255 : Int) - SETUP_U8) + SETUP_U16 ∧
    scaledSample 12 ((255 : Int) - SETUP_U8) + SETUP_U16 ≤ 65280 ∧
    (scaledSample 12 ((255 : Int) - SETUP_U8) + SETUP_U16) % 65536 =
      scaledSample 12 ((255 : Int) - SETUP_U8) + SETUP_U16 := by
  have h := no_wrap_8bit 255 12 (by decide)
  simpa using h

/-- C8: the invariant `buf_size = buffer.length` holds for the state
built by `open_device` at any length and is preserved by `set_mute`,
`set_volume`, every successful `set_data`, every successful callback,
and every read accessor. -/
theorem buf_size_invariant (len : Nat) (s t u : Sound) (b : Bool) (v n off : Nat)
    (sound outs : List Nat) (hs : sizeInv s)
    (hd : set_data s off sound = some t) (hc : callback s n = some (u, outs)) :
    sizeInv (openSound len) ∧ sizeInv (set_mute s b) ∧ sizeInv (set_volume s v) ∧
      sizeInv t ∧ sizeInv u ∧ sizeInv (buf_size_acc s).2 ∧ sizeInv (mute_acc s).2 ∧
      sizeInv (volume_acc s).2 ∧ sizeInv (current_acc s).2 ∧ sizeInv (called_acc s).2 := by
  refine ⟨?_, hs, hs, ?_, ?_, hs, hs, hs, hs, hs⟩
  · simp [sizeInv, openSound]
  · unfold set_data at hd
    rw [Option.map_eq_some'] at hd
    obtain ⟨bb, hbb, hf⟩ := hd
    subst hf
    have hlb := set_dataLoop_length sound s.buffer s.buf_size off bb hbb
    unfold sizeInv at hs ⊢
    simp only []
    rw [hlb]
    exact hs
  · unfold callback at hc
    rw [Option.map_eq_some'] at hc
    obtain ⟨⟨s1, os⟩, hl, hf⟩ := hc
    injection hf with hu _
    subst hu
    obtain ⟨hs1, _, _⟩ := callbackLoop_spec n s s1 os hl
    subst hs1
    exact hs

/-- Witness for C8 at a one-byte store, a one-byte write and a one-slot
callback. -/
theorem buf_size_invariant_witness :
    sizeInv (openSound 2) ∧
    sizeInv (set_mute ⟨[128], 1, 0, false, 0, 0⟩ true) ∧
    sizeInv (set_volume ⟨[128], 1, 0, false, 0, 0⟩ 5) ∧
    sizeInv ⟨[9], 1, 0, false, 0, 0⟩ ∧
    sizeInv ⟨[128], 1, 0, false, 1, 1⟩ ∧
    sizeInv (buf_size_acc ⟨[128], 1, 0, false, 0, 0⟩).2 ∧
    sizeInv (mute_acc ⟨[128], 1, 0, false, 0, 0⟩).2 ∧
    sizeInv (volume_acc ⟨[128], 1, 0, false, 0, 0⟩).2 ∧
    sizeInv (current_acc ⟨[128], 1, 0, false, 0, 0⟩).2 ∧
    sizeInv (called_acc ⟨[128], 1, 0, false, 0, 0⟩).2 :=
  buf_size_invariant 2 ⟨[128], 1, 0, false, 0, 0⟩ ⟨[9], 1, 0, false, 0, 0⟩
    ⟨[128], 1, 0, false, 1, 1⟩ true 5 1 0 [9] [32768] rfl (by decide) (by decide)

/-- C3 (counterexample): with a store of size 1, writing the two-byte
slice [1, 2] at offset 0 succeeds, but the later byte overwrites the
earlier one, so reading the wrapped position (0 + 0) % 1 yields 2 and
not the first written byte, 1 = [1, 2][0]. -/
theorem set_data_overlength_counterexample :
    (set_data ⟨[128], 1, 0, false, 0, 0⟩ 0 [1, 2]).map
        (fun t => t.buffer[(0 + 0) % 1]?) = some (some 2) ∧
    some (some 2) ≠ some (([1, 2] : List Nat)[0]?) := by decide

/-- C3 (amended): when at most `buf_size` bytes are written into a
store satisfying the size invariant with `buf_size > 0`, `set_data`
succeeds and reading the store at the wrapped positions
`(offset + i) % buf_size` yields exactly the written bytes in order;
writing the empty slice is a no-op. -/
theorem set_data_readback (s : Sound) (offset : Nat) (sound : List Nat)
    (hinv : sizeInv s) (h0 : 0 < s.buf_size) (hle : sound.length ≤ s.buf_size) :
    (∃ t, set_data s offset sound = some t ∧
       ∀ i, i < sound.length → t.buffer[(offset + i) % s.buf_size]? = sound[i]?) ∧
    set_data s offset [] = some s := by
  constructor
  · obtain ⟨b, hb, _, hbget, _⟩ :=
      set_dataLoop_spec sound s.buffer s.buf_size offset hinv.symm h0 hle
    refine ⟨{ s with buffer := b }, ?_, hbget⟩
    unfold set_data
    rw [hb]
    rfl
  · rfl

/-- Witness for C3 at a three-byte store with a wrapping two-byte write
at offset 2. -/
theorem set_data_readback_witness :
    (∃ t, set_data ⟨[128, 128, 128], 3, 0, false, 0, 0⟩ 2 [10, 20] = some t ∧
       ∀ i, i < ([10, 20] : List Nat).length →
         t.buffer[(2 + i) % 3]? = ([10, 20] : List Nat)[i]?) ∧
    set_data ⟨[128, 128, 128], 3, 0, false, 0, 0⟩ 2 [] =
      some ⟨[128, 128, 128], 3, 0, false, 0, 0⟩ :=
  set_data_readback ⟨[128, 128, 128], 3, 0, false, 0, 0⟩ 2 [10, 20] rfl
    (by decide) (by decide)

/-- C6: starting from the fresh store of size `n > 0`, writing a byte
pattern of length `n` at offset 0, setting volume 7 and mute off, one
callback over exactly `n` slots reproduces the pattern bias-shifted:
slot `i` holds `((pattern[i] - 128) * 256 + 32768) mod 2^16`, which
equals `pattern[i] * 256`. -/
theorem round_trip_volume7 (n : Nat) (pattern : List Nat) (hn : 0 < n)
    (hlen : pattern.length = n) (hbyte : ∀ a ∈ pattern, a < 256) :
    ∃ t u outs,
      set_data (openSound n) 0 pattern = some t ∧
      callback (set_mute (set_volume t 7) false) n = some (u, outs) ∧
      outs.length = n ∧
      (∀ i, i < n → outs[i]? = (pattern[i]?).map fun (p : Nat) =>
        ((((p : Int) - 128) * 256 + 32768) % 65536).toNat) ∧
      (∀ i, i < n → outs[i]? = (pattern[i]?).map fun (p : Nat) => p * 256) := by
  have hrep : (List.replicate n (128 : Nat)).length = n := by simp
  obtain ⟨b, hb, _, hbget, _⟩ :=
    set_dataLoop_spec pattern (List.replicate n 128) n 0 hrep hn (le_of_eq hlen)
  have hbp : b = pattern := by
    apply List.ext_getElem?
    intro i
    by_cases hi : i < n
    · have := hbget i (by omega)
      simpa [Nat.mod_eq_of_lt hi] using this
    · rw [List.getElem?_eq_none (l := b) (by
          rw [set_dataLoop_length pattern (List.replicate n 128) n 0 b hb, hrep]; omega),
        List.getElem?_eq_none (by omega)]
  rw [hbp] at hb
  have hset : set_data (openSound n) 0 pattern =
      some { openSound n with buffer := pattern } := by
    unfold set_data
    show (set_dataLoop (List.replicate n 128) n 0 pattern).map _ = _
    rw [hb]
    rfl
  have hne : n ≠ 0 := by omega
  have hsome := callbackLoop_isSome n ⟨pattern, n, 7, false, 0, 0⟩ (Or.inl hne)
  obtain ⟨⟨u0, outs⟩, hcb⟩ :
      ∃ r, callbackLoop ⟨pattern, n, 7, false, 0, 0⟩ n = some r :=
    Option.isSome_iff_exists.mp hsome
  obtain ⟨_, hleno, hget⟩ := callbackLoop_spec n _ u0 outs hcb
  have hsample : ∀ i, i < n →
      outs[i]? = (pattern[i]?).map fun (p : Nat) =>
        ((((p : Int) - 128) * 256 + 32768) % 65536).toNat := by
    intro i hi
    have hip : i < pattern.length := by omega
    have hp : pattern[i]? = some pattern[i] := List.getElem?_eq_getElem hip
    rw [hget i hi, hp]
    have hraw : pattern[(0 + i) % n]? = some pattern[i] := by
      rw [Nat.zero_add, Nat.mod_eq_of_lt hi]
      exact hp
    have := sampleOutput_some ⟨pattern, n, 7, false, 0 + i, 0⟩ pattern[i]
      rfl (by norm_num) hne hraw
    rw [this]
    rfl
  refine ⟨{ openSound n with buffer := pattern }, { u0 with called := u0.called + 1 },
    outs, hset, ?_, hleno, hsample, ?_⟩
  · unfold callback
    show (callbackLoop ⟨pattern, n, 7, false, 0, 0⟩ n).map _ = _
    rw [hcb]
    rfl
  · intro i hi
    rw [hsample i hi]
    have hip : i < pattern.length := by omega
    have hplt : pattern[i] < 256 := hbyte _ (List.getElem_mem hip)
    have hval : (((((pattern[i] : Nat) : Int) - 128) * 256 + 32768) % 65536).toNat =
        pattern[i] * 256 := by
      have hpi : ((pattern[i] : Nat) : Int) < 256 := by exact_mod_cast hplt
      have hpi0 : (0 : Int) ≤ ((pattern[i] : Nat) : Int) := Int.natCast_nonneg _
      omega
    rw [List.getElem?_eq_getElem hip]
    show some (((((pattern[i] : Nat) : Int) - 128) * 256 + 32768) % 65536).toNat =
      some (pattern[i] * 256)
    exact congrArg some hval

/-- Witness for C6 at a two-byte pattern holding the extreme raw values
0 and 255. -/
theorem round_trip_volume7_witness :
    ∃ t u outs,
      set_data (openSound 2) 0 [0, 255] = some t ∧
      callback (set_mute (set_volume t 7) false) 2 = some (u, outs) ∧
      outs.length = 2 ∧
      (∀ i, i < 2 → outs[i]? = (([0, 255] : List Nat)[i]?).map fun (p : Nat) =>
        ((((p : Int) - 128) * 256 + 32768) % 65536).toNat) ∧
      (∀ i, i < 2 → outs[i]? = (([0, 255] : List Nat)[i]?).map fun (p : Nat) => p * 256) :=
  round_trip_volume7 2 [0, 255] (by decide) (by decide) (by decide)
